import Mathlib

/-!
Verification of the service-discovery registry core: the Mongo-backed
instance store (repository/mongo_repo.go), the HTTP orchestration layer
(handlers/http.go), and the websocket fan-out (handlers/ws.go).

The Mongo collection is embedded as a list of documents; every document in
this system is a full `Instance` record (models/instance.go), so the
collection is `List Instance`. Mongo operation semantics are embedded
directly: `UpdateOne` affects the first matching document only, `$set` of
the full struct overwrites every `Instance` field, `DeleteMany` removes all
matching documents and succeeds on zero matches, and BSON equality is
type-sensitive (a string value never equals an int or bool value). Time is
embedded as an integer tick count.
-/

namespace ServiceDiscovery

/-- BSON scalar values occurring in this system: stored metadata fields are
strings, ints or bools (models/instance.go), and the handler layer produces
bool or string filter values (handlers/http.go `parseString`). BSON equality
between values of different types is false. -/
inductive BVal where
  | s (v : String)
  | b (v : Bool)
  | i (v : Int)
deriving DecidableEq, Repr

/-- Go struct `models.Metadata` (src/models/instance.go lines 5-11): `environment`,
`region`, `version` are required; `developer` and `experimental` are
optional and hold Go zero values when absent from the request. -/
structure Metadata where
  environment : String
  region : String
  version : Int
  developer : String
  experimental : Bool
deriving DecidableEq, Repr

/-- BSON dotted access `metadata.<key>` on a stored document: every stored
document carries exactly these five metadata fields, so any other key is
absent (and an equality filter on an absent field matches nothing). -/
def Metadata.get (m : Metadata) (k : String) : Option BVal :=
  if k = "environment" then some (.s m.environment)
  else if k = "region" then some (.s m.region)
  else if k = "version" then some (.i m.version)
  else if k = "developer" then some (.s m.developer)
  else if k = "experimental" then some (.b m.experimental)
  else none

/-- Go struct `models.Instance` (src/models/instance.go lines 13-22). `lastHeartbeat`
is a UTC timestamp, embedded as an integer. -/
structure Instance where
  serviceName : String
  id : String
  host : String
  port : Int
  mode : String
  metadata : Metadata
  health : String
  lastHeartbeat : Int
deriving DecidableEq, Repr

/-- The BSON key filter `{serviceName: sn, id: i}` used by `Register` and
`UpdateHeartbeat` (src/unnamed/part_003 lines 25 and 32). -/
def matchKey (sn i : String) (d : Instance) : Bool :=
  d.serviceName == sn && d.id == i

/-- Number of documents in the collection matching a key. -/
def keyCount (sn i : String) (store : List Instance) : Nat :=
  store.countP (matchKey sn i)

/-- Mongo `UpdateOne` semantics: the update is applied to the first matching
document only; every other document is untouched. -/
def updateFirst (p : Instance → Bool) (f : Instance → Instance) :
    List Instance → List Instance
  | [] => []
  | d :: ds => if p d then f d :: ds else d :: updateFirst p f ds

/-- The record as `MongoRepo.Register` stores it (src/unnamed/part_003 lines
23-24): `lastHeartbeat` and `health` overwritten before the write, whatever
the caller supplied in those fields. -/
def registered (now : Int) (inst : Instance) : Instance :=
  { inst with lastHeartbeat := now, health := "UP" }

/-- Repository operation `MongoRepo.Register` (src/unnamed/part_003 lines 22-29): sets
`lastHeartbeat := now` and `health := "UP"` on its own copy of the instance,
then `UpdateOne` with `$set` of the full struct and upsert enabled, keyed by
`(serviceName, id)`. `$set` of the full struct overwrites every `Instance`
field of a matched document, so a matched document becomes exactly the new
record; with no match the upsert inserts the new record. -/
def Register (now : Int) (inst : Instance) (store : List Instance) :
    List Instance :=
  if store.any (matchKey inst.serviceName inst.id) then
    updateFirst (matchKey inst.serviceName inst.id)
      (fun _ => registered now inst) store
  else
    store ++ [registered now inst]

/-- The error `mongo.ErrNoDocuments` returned by `UpdateHeartbeat` when the
key filter matches no document. -/
def errNoDocuments : String := "mongo: no documents in result"

/-- Repository operation `MongoRepo.UpdateHeartbeat` (src/unnamed/part_003 lines 31-42):
`UpdateOne` (no upsert) with `$set {lastHeartbeat: now, health: "UP"}` keyed
by `(serviceName, id)`; when `MatchedCount` is zero it returns
`mongo.ErrNoDocuments`. Result: the collection after the write, and the
error if any. -/
def UpdateHeartbeat (now : Int) (sn i : String) (store : List Instance) :
    List Instance × Option String :=
  let store2 := updateFirst (matchKey sn i)
    (fun d => { d with lastHeartbeat := now, health := "UP" }) store
  if store.any (matchKey sn i) then (store2, none)
  else (store2, some errNoDocuments)

/-- The non-liveness part of the BSON filter built by `MongoRepo.Find`
(src/unnamed/part_003 lines 45-54): equality on `serviceName` only when the
argument is non-empty, equality on `mode` only when non-empty, and an
equality constraint `metadata.<key> = value` per metadata entry. -/
def basePred (serviceName mode : String) (metadata : List (String × BVal))
    (d : Instance) : Bool :=
  (serviceName == "" || d.serviceName == serviceName) &&
  (mode == "" || d.mode == mode) &&
  (metadata.all fun kv => d.metadata.get kv.1 == some kv.2)

/-- The full BSON filter of `MongoRepo.Find` (src/unnamed/part_003 lines
45-58): the base filter plus, when `aliveOnly`, the liveness constraint
`lastHeartbeat >= now - ttl` (`$gte`, boundary included). -/
def findPred (serviceName mode : String) (metadata : List (String × BVal))
    (aliveOnly : Bool) (ttl now : Int) (d : Instance) : Bool :=
  basePred serviceName mode metadata d &&
  (!aliveOnly || decide (now - ttl ≤ d.lastHeartbeat))

/-- Repository operation `MongoRepo.Find` (src/unnamed/part_003 lines 44-71): returns the
documents matching the filter. -/
def Find (serviceName mode : String) (metadata : List (String × BVal))
    (aliveOnly : Bool) (ttl now : Int) (store : List Instance) :
    List Instance :=
  store.filter (findPred serviceName mode metadata aliveOnly ttl now)

/-- Repository operation `MongoRepo.CleanupDead` (src/unnamed/part_003 lines 73-77): `DeleteMany`
with filter `lastHeartbeat < now - ttl` (`$lt`, strict). Mongo `DeleteMany`
deletes every matching document and succeeds with a zero deleted count when
nothing matches, so the only error source is backing I/O, outside this
model: the second component is always `none`. -/
def CleanupDead (now ttl : Int) (store : List Instance) :
    List Instance × Option String :=
  (store.filter fun d => !decide (d.lastHeartbeat < now - ttl), none)

/-- The event actions of handlers/ws.go lines 56-62. -/
inductive ServiceUpdateAction where
  | register
  | deregister
  | heartbeat
deriving DecidableEq, Repr

/-- Go struct `handlers.ServiceUpdate` (src/handlers/ws.go lines 64-67). -/
structure ServiceUpdate where
  action : ServiceUpdateAction
  service : Instance
deriving DecidableEq, Repr

/-- A connected websocket client of the hub (handlers/ws.go lines 19-22):
identified here by a number, with a flag for whether a `WriteJSON` delivery
attempt to it errors. -/
structure Subscriber where
  sid : Nat
  failsDelivery : Bool
deriving DecidableEq, Repr

/-- Hub operation `handlers.BroadcastMessage` (src/handlers/ws.go lines 69-81): iterates
the client set, writing the message to each client; a client whose write
errors is closed and deleted from the set, and the loop continues with the
remaining clients. Returns the surviving client set and the successful
deliveries as (client id, message) pairs. -/
def BroadcastMessage (msg : ServiceUpdate) :
    List Subscriber → List Subscriber × List (Nat × ServiceUpdate)
  | [] => ([], [])
  | c :: cs =>
    let rest := BroadcastMessage msg cs
    if c.failsDelivery then rest
    else (c :: rest.1, (c.sid, msg) :: rest.2)

/-- Helper `parseString` (src/handlers/http.go lines 63-71): the literal tokens
"true" and "false" become booleans; every other value stays a string. -/
def parseString (s : String) : BVal :=
  if s = "true" then .b true
  else if s = "false" then .b false
  else .s s

/-- Outcome of the POST /register handler (src/handlers/http.go lines
14-25) on a request that passed JSON binding: the collection after the
call, the HTTP status, the response body, and the events the handler
broadcast. The handler passes `inst` to `repo.Register` by value (a Go
struct copy), so the `lastHeartbeat`/`health` overwrite inside `Register`
does not reach the copy of `inst` held by the handler, and `c.JSON(200, inst)`
serializes the instance exactly as the caller supplied it. The handler
body contains no call to `BroadcastMessage`. -/
structure RegisterResult where
  store : List Instance
  status : Nat
  body : Instance
  broadcasts : List ServiceUpdate
deriving DecidableEq, Repr

/-- The POST /register handler (src/handlers/http.go lines 14-25), after
successful JSON binding. -/
def registerHandler (now : Int) (inst : Instance) (store : List Instance) :
    RegisterResult :=
  { store := Register now inst store
    status := 200
    body := inst
    broadcasts := [] }

/-- Outcome of the POST /heartbeat handler (src/handlers/http.go lines
27-41) on a request that passed JSON binding. -/
structure HeartbeatResult where
  store : List Instance
  status : Nat
  broadcasts : List ServiceUpdate
deriving DecidableEq, Repr

/-- The POST /heartbeat handler (src/handlers/http.go lines 27-41), after
successful JSON binding: calls `repo.UpdateHeartbeat`; any error yields
404, success yields 200. No call to `BroadcastMessage` occurs. -/
def heartbeatHandler (now : Int) (sn i : String) (store : List Instance) :
    HeartbeatResult :=
  match UpdateHeartbeat now sn i store with
  | (store2, none) => { store := store2, status := 200, broadcasts := [] }
  | (store2, some _) => { store := store2, status := 404, broadcasts := [] }

/-- First value of a query parameter, empty string when absent: the gin
call `c.Query` (src/handlers/http.go lines 44-45). The parameter list
stands for the Go `url.Values` map with one (key, first value) pair per
distinct key. -/
def queryParam (params : List (String × String)) (k : String) : String :=
  ((params.find? fun p => p.1 == k).map Prod.snd).getD ""

/-- The metadata filter map built by the GET /lookup handler
(src/handlers/http.go lines 46-52): every query key other than "service"
and "mode" becomes an entry `key = parseString value`. -/
def lookupMetadata (params : List (String × String)) :
    List (String × BVal) :=
  (params.filter fun p => p.1 != "service" && p.1 != "mode").map
    fun p => (p.1, parseString p.2)

/-- What the gin call `c.JSON` renders for the `[]models.Instance` slice of the
lookup handler: `var instances []models.Instance` starts nil, `cur.All`
appends one element per matching document and leaves the slice nil when
there is none, and `encoding/json` marshals a nil slice as JSON `null` and
a non-empty slice as an array. -/
inductive JsonBody where
  | nullBody
  | arrayBody (xs : List Instance)
deriving DecidableEq, Repr

/-- JSON rendering of the result slice of the handler (see `JsonBody`). -/
def renderInstances : List Instance → JsonBody
  | [] => .nullBody
  | xs => .arrayBody xs

/-- The GET /lookup handler (src/handlers/http.go lines 43-59): builds
`service`, `mode` and the metadata filter from the query, calls
`repo.Find` with `aliveOnly = true` and the configured TTL, and renders
the result with status 200. -/
def lookupHandler (now ttl : Int) (params : List (String × String))
    (store : List Instance) : Nat × JsonBody :=
  let instances := Find (queryParam params "service") (queryParam params "mode")
    (lookupMetadata params) true ttl now store
  (200, renderInstances instances)

/-- A concrete registered instance used by witnesses and counterexamples. -/
def instEx : Instance :=
  { serviceName := "order-service", id := "o1", host := "127.0.0.1",
    port := 8080, mode := "dev",
    metadata := { environment := "dev", region := "us-east", version := 1,
                  developer := "", experimental := false },
    health := "", lastHeartbeat := 0 }

theorem updateFirst_of_not_any (p : Instance → Bool) (f : Instance → Instance)
    (l : List Instance) (h : l.any p = false) : updateFirst p f l = l := by
  induction l with
  | nil => rfl
  | cons d ds ih =>
    rw [List.any_cons, Bool.or_eq_false_iff] at h
    simp [updateFirst, h.1, ih h.2]

theorem countP_zero_map_ite (p : Instance → Bool) (f : Instance → Instance)
    (l : List Instance) (h : l.countP p = 0) :
    (l.map fun d => if p d then f d else d) = l := by
  induction l with
  | nil => rfl
  | cons d ds ih =>
    by_cases hd : p d = true
    · rw [List.countP_cons_of_pos _ _ hd] at h
      omega
    · rw [List.countP_cons_of_neg _ _ (by simpa using hd)] at h
      simp only [List.map_cons, if_neg hd, ih h]

theorem updateFirst_eq_map (p : Instance → Bool) (f : Instance → Instance)
    (l : List Instance) (h : l.countP p ≤ 1) :
    updateFirst p f l = l.map fun d => if p d then f d else d := by
  induction l with
  | nil => rfl
  | cons d ds ih =>
    by_cases hd : p d = true
    · have h0 : ds.countP p = 0 := by
        rw [List.countP_cons_of_pos _ _ hd] at h
        omega
      simp [updateFirst, hd, countP_zero_map_ite p f ds h0]
    · have h1 : ds.countP p ≤ 1 := by
        rw [List.countP_cons_of_neg _ _ (by simpa using hd)] at h
        exact h
      simp [updateFirst, hd, ih h1]

theorem filter_not_map_ite (p : Instance → Bool) (c : Instance)
    (hc : p c = true) (l : List Instance) :
    ((l.map fun d => if p d then c else d).filter fun d => !p d) =
      l.filter fun d => !p d := by
  induction l with
  | nil => rfl
  | cons d ds ih =>
    by_cases hd : p d = true
    · simp [hd, hc, ih]
    · simp [hd, ih]

theorem mem_updateFirst_const (p : Instance → Bool) (c : Instance)
    (l : List Instance) (h : l.any p = true) :
    c ∈ updateFirst p (fun _ => c) l := by
  induction l with
  | nil => simp at h
  | cons d ds ih =>
    by_cases hd : p d = true
    · simp [updateFirst, hd]
    · rw [List.any_cons, Bool.eq_false_iff.mpr hd, Bool.false_or] at h
      simp [updateFirst, hd, ih h]

theorem registered_mem_register (now : Int) (inst : Instance)
    (store : List Instance) :
    registered now inst ∈ Register now inst store := by
  unfold Register
  by_cases hany : store.any (matchKey inst.serviceName inst.id) = true
  · rw [if_pos hany]
    exact mem_updateFirst_const _ _ _ hany
  · rw [if_neg hany]
    exact List.mem_append_right _ (List.mem_singleton.mpr rfl)

/-- C1: for every instance payload, `Register` inserts or fully replaces
the record keyed by `(serviceName, id)`; the stored record has
`lastHeartbeat = now` and `health = "UP"` regardless of the caller-supplied
values of those fields, no field of the previous record under that key
survives, and records under other keys are untouched. (Keys are unique by
the data-model invariant, hence the at-most-one-match hypothesis.) -/
theorem register_full_replace (now : Int) (inst : Instance)
    (store : List Instance)
    (h : keyCount inst.serviceName inst.id store ≤ 1) :
    (registered now inst).health = "UP" ∧
    (registered now inst).lastHeartbeat = now ∧
    registered now inst ∈ Register now inst store ∧
    (∀ d ∈ Register now inst store,
      matchKey inst.serviceName inst.id d = true → d = registered now inst) ∧
    (Register now inst store).filter
        (fun d => !matchKey inst.serviceName inst.id d) =
      store.filter (fun d => !matchKey inst.serviceName inst.id d) := by
  have hc : matchKey inst.serviceName inst.id (registered now inst) = true := by
    simp [matchKey, registered]
  refine ⟨rfl, rfl, registered_mem_register now inst store, ?_, ?_⟩
  · intro d hd hmatch
    unfold Register at hd
    by_cases hany : store.any (matchKey inst.serviceName inst.id) = true
    · rw [if_pos hany, updateFirst_eq_map _ _ _ h] at hd
      obtain ⟨x, hx, hxd⟩ := List.mem_map.mp hd
      by_cases hpx : matchKey inst.serviceName inst.id x = true
      · rw [if_pos hpx] at hxd
        exact hxd.symm
      · rw [if_neg hpx] at hxd
        exact absurd (hxd ▸ hmatch) hpx
    · rw [if_neg hany] at hd
      rcases List.mem_append.mp hd with hds | hone
      · exact absurd hmatch ((List.any_eq_false.mp
          (Bool.eq_false_iff.mpr hany)) d hds)
      · exact List.mem_singleton.mp hone
  · unfold Register
    by_cases hany : store.any (matchKey inst.serviceName inst.id) = true
    · rw [if_pos hany, updateFirst_eq_map _ _ _ h]
      exact filter_not_map_ite _ _ hc store
    · rw [if_neg hany, List.filter_append]
      simp [hc]

/-- Witness for C1: registering instEx into the empty store stores the
record with health "UP" and lastHeartbeat 100, and leaves the (empty) set
of other-key records unchanged. -/
theorem register_full_replace_witness :
    registered 100 instEx ∈ Register 100 instEx [] ∧
    (Register 100 instEx []).filter
        (fun d => !matchKey instEx.serviceName instEx.id d) =
      ([] : List Instance).filter
        (fun d => !matchKey instEx.serviceName instEx.id d) := by
  have h := register_full_replace 100 instEx [] (by decide)
  exact ⟨h.2.2.1, h.2.2.2.2⟩

/-- C3: an alive-only lookup returns exactly the stored instances that
match the base filter and whose lastHeartbeat is at least now - TTL; in
particular nothing strictly older than now - TTL is returned and the
boundary value now - TTL itself is included. -/
theorem lookup_alive_boundary_iff (sn mode : String)
    (metadata : List (String × BVal)) (ttl now : Int)
    (store : List Instance) (d : Instance) :
    d ∈ Find sn mode metadata true ttl now store ↔
      d ∈ store ∧ basePred sn mode metadata d = true ∧
        now - ttl ≤ d.lastHeartbeat := by
  simp [Find, findPred, List.mem_filter, and_assoc]

/-- C4: after the sweep with cutoff now - TTL, a record is in the store iff
it was there before with lastHeartbeat not below the cutoff; the survivors
are the original records unchanged, in order (sublist); a sweep matching
zero records leaves the store identical; and the sweep never returns an
error (Mongo DeleteMany succeeds on zero matches). -/
theorem sweep_evicts_stale_only (now ttl : Int) (store : List Instance) :
    (∀ d, d ∈ (CleanupDead now ttl store).1 ↔
      d ∈ store ∧ ¬(d.lastHeartbeat < now - ttl)) ∧
    ((CleanupDead now ttl store).1).Sublist store ∧
    ((∀ d ∈ store, ¬(d.lastHeartbeat < now - ttl)) →
      (CleanupDead now ttl store).1 = store) ∧
    (CleanupDead now ttl store).2 = none := by
  refine ⟨?_, ?_, ?_, rfl⟩
  · intro d
    simp [CleanupDead, List.mem_filter]
  · exact List.filter_sublist _
  · intro hall
    simp only [CleanupDead]
    refine List.filter_eq_self.mpr ?_
    intro d hd
    simpa using hall d hd

/-- C5: a heartbeat on a key with no matching record returns NotFound
(mongo.ErrNoDocuments) and leaves the store unchanged; on an existing key
it sets the lastHeartbeat of exactly that record to now and health to "UP",
changing no other field and no other record. (Keys are unique by the
data-model invariant, hence the at-most-one-match hypothesis.) -/
theorem heartbeat_touch_spec (now : Int) (sn i : String)
    (store : List Instance) (h : keyCount sn i store ≤ 1) :
    (store.any (matchKey sn i) = false →
      UpdateHeartbeat now sn i store = (store, some errNoDocuments)) ∧
    (store.any (matchKey sn i) = true →
      UpdateHeartbeat now sn i store =
        (store.map fun d => if matchKey sn i d
            then { d with lastHeartbeat := now, health := "UP" } else d,
          none)) := by
  constructor
  · intro hany
    unfold UpdateHeartbeat
    rw [updateFirst_of_not_any _ _ _ hany, if_neg]
    simp [hany]
  · intro hany
    unfold UpdateHeartbeat
    rw [updateFirst_eq_map _ _ _ h, if_pos hany]

/-- Witness for C5: a heartbeat at time 200 on the key of the record stored
by registering instEx at time 100 succeeds and advances the lastHeartbeat
of only that record. -/
theorem heartbeat_touch_spec_witness :
    UpdateHeartbeat 200 "order-service" "o1" [registered 100 instEx] =
      ([registered 200 instEx], none) := by
  have h := (heartbeat_touch_spec 200 "order-service" "o1"
    [registered 100 instEx] (by decide)).2 (by decide)
  rw [h]
  decide

/-- An instance whose caller-supplied health and lastHeartbeat are
non-default, to observe whether the register response overrides them. -/
def instDown : Instance :=
  { instEx with health := "DOWN", lastHeartbeat := 5 }

/-- C2 counterexample: registering instDown at time 100 stores the record
with health "UP" and lastHeartbeat 100, but the 200 response body still
carries the caller-supplied health "DOWN" and lastHeartbeat 5 — the
response is not the stored instance (the handler passes the struct to
`repo.Register` by value, so the overwrite never reaches the response). -/
theorem register_echo_counterexample :
    (registerHandler 100 instDown []).status = 200 ∧
    (registerHandler 100 instDown []).body.health = "DOWN" ∧
    (registerHandler 100 instDown []).body.lastHeartbeat = 5 ∧
    (registerHandler 100 instDown []).store = [registered 100 instDown] ∧
    (registered 100 instDown).health = "UP" ∧
    (registerHandler 100 instDown []).body ≠ registered 100 instDown := by
  decide

/-- C2 amended: the POST /register success response is 200 and its body is
the request instance exactly as the caller supplied it, health and
lastHeartbeat included; the server-assigned health "UP" and fresh
lastHeartbeat appear only in the stored record. -/
theorem register_response_echoes_caller (now : Int) (inst : Instance)
    (store : List Instance) :
    (registerHandler now inst store).status = 200 ∧
    (registerHandler now inst store).body = inst ∧
    registered now inst ∈ (registerHandler now inst store).store ∧
    (registered now inst).health = "UP" ∧
    (registered now inst).lastHeartbeat = now :=
  ⟨rfl, rfl, registered_mem_register now inst store, rfl, rfl⟩

theorem heartbeatHandler_eq (now : Int) (sn i : String)
    (store : List Instance) :
    heartbeatHandler now sn i store =
      { store := (UpdateHeartbeat now sn i store).1
        status := if (UpdateHeartbeat now sn i store).2 = none
          then 200 else 404
        broadcasts := [] } := by
  unfold heartbeatHandler
  rcases h : UpdateHeartbeat now sn i store with ⟨s, e⟩
  cases e <;> simp

/-- C6 counterexample: a successful register (status 200) and a successful
heartbeat on the registered key (status 200) each broadcast no event at
all — yet a connected subscriber would have received the event had
`BroadcastMessage` been invoked. The handlers never call it. -/
theorem mutation_without_broadcast_counterexample :
    (registerHandler 100 instEx []).status = 200 ∧
    (registerHandler 100 instEx []).broadcasts = [] ∧
    (heartbeatHandler 200 "order-service" "o1"
      (registerHandler 100 instEx []).store).status = 200 ∧
    (heartbeatHandler 200 "order-service" "o1"
      (registerHandler 100 instEx []).store).broadcasts = [] ∧
    (BroadcastMessage ⟨.register, registered 100 instEx⟩
      [⟨0, false⟩]).2 ≠ [] := by
  decide

/-- C6 amended: the orchestration layer performs the store mutation but
broadcasts nothing: the register handler upserts and emits no event, and
the heartbeat handler touches the heartbeat and emits no event;
`BroadcastMessage` is never invoked on the register/heartbeat paths. -/
theorem handlers_emit_no_events (now now2 : Int) (inst : Instance)
    (sn i : String) (store store2 : List Instance) :
    (registerHandler now inst store).store = Register now inst store ∧
    (registerHandler now inst store).broadcasts = [] ∧
    (heartbeatHandler now2 sn i store2).store =
      (UpdateHeartbeat now2 sn i store2).1 ∧
    (heartbeatHandler now2 sn i store2).broadcasts = [] := by
  rw [heartbeatHandler_eq]
  exact ⟨rfl, rfl, rfl, rfl⟩

/-- C7: at the failing input — a registry holding only instEx and a lookup
for a service name that matches nothing — the handler returns 200 with
JSON null (Go marshals the nil result slice as null), which is not the
empty JSON array the spec requires. -/
theorem lookup_no_match_returns_null :
    lookupHandler 100 30 [("service", "nope")] [instEx] =
      (200, JsonBody.nullBody) ∧
    JsonBody.nullBody ≠ JsonBody.arrayBody [] := by
  decide

theorem broadcastMessage_eq (msg : ServiceUpdate)
    (clients : List Subscriber) :
    BroadcastMessage msg clients =
      (clients.filter fun c => !c.failsDelivery,
       (clients.filter fun c => !c.failsDelivery).map
         fun c => (c.sid, msg)) := by
  induction clients with
  | nil => rfl
  | cons c cs ih =>
    by_cases hc : c.failsDelivery = true
    · simp [BroadcastMessage, hc, ih]
    · have hc2 : c.failsDelivery = false := Bool.eq_false_iff.mpr hc
      simp [BroadcastMessage, hc2, ih]

/-- C8: a broadcast over the current subscriber set keeps exactly the
subscribers whose delivery succeeds, removes every failing subscriber from
the set, and still delivers the event to every remaining subscriber — a
failure does not stop the loop. -/
theorem broadcast_drop_and_continue (msg : ServiceUpdate)
    (clients : List Subscriber) :
    (BroadcastMessage msg clients).1 =
      clients.filter (fun c => !c.failsDelivery) ∧
    (BroadcastMessage msg clients).2 =
      (clients.filter fun c => !c.failsDelivery).map
        (fun c => (c.sid, msg)) ∧
    (∀ c ∈ clients, c.failsDelivery = true →
      c ∉ (BroadcastMessage msg clients).1) ∧
    (∀ c ∈ clients, c.failsDelivery = false →
      (c.sid, msg) ∈ (BroadcastMessage msg clients).2) := by
  rw [broadcastMessage_eq]
  refine ⟨rfl, rfl, ?_, ?_⟩
  · intro c _ hfail hmem
    have := (List.mem_filter.mp hmem).2
    rw [hfail] at this
    exact absurd this (by decide)
  · intro c hmem hok
    exact List.mem_map.mpr
      ⟨c, List.mem_filter.mpr ⟨hmem, by rw [hok]; rfl⟩, rfl⟩

theorem mem_lookupMetadata_of_param (params : List (String × String))
    (kv : String × String) (hkv : kv ∈ params) (h1 : kv.1 ≠ "service")
    (h2 : kv.1 ≠ "mode") :
    (kv.1, parseString kv.2) ∈ lookupMetadata params := by
  unfold lookupMetadata
  refine List.mem_map.mpr ⟨kv, List.mem_filter.mpr ⟨hkv, ?_⟩, rfl⟩
  rw [Bool.and_eq_true, bne_iff_ne, bne_iff_ne]
  exact ⟨h1, h2⟩

/-- C9: the filter engine coerces exactly the literal tokens "true" and
"false" to booleans and leaves every other value a string; every query
parameter other than service and mode yields an equality constraint on
metadata.<key> with the coerced value (and only such parameters yield
constraints), so every instance an alive-only lookup returns satisfies the
constraint of each such parameter; and a numeric token such as "2" stays
the string "2", so it never equals the integer-valued version field of any
stored instance. -/
theorem filter_value_coercion_spec :
    parseString "true" = .b true ∧
    parseString "false" = .b false ∧
    (∀ s, s ≠ "true" → s ≠ "false" → parseString s = .s s) ∧
    parseString "2" = .s "2" ∧
    (∀ params : List (String × String), ∀ kv ∈ params,
      kv.1 ≠ "service" → kv.1 ≠ "mode" →
        (kv.1, parseString kv.2) ∈ lookupMetadata params) ∧
    (∀ params : List (String × String), ∀ kv ∈ lookupMetadata params,
      kv.1 ≠ "service" ∧ kv.1 ≠ "mode" ∧
        ∃ v, (kv.1, v) ∈ params ∧ kv.2 = parseString v) ∧
    (∀ (now ttl : Int) (params : List (String × String))
        (store : List Instance) (d : Instance),
      d ∈ Find (queryParam params "service") (queryParam params "mode")
          (lookupMetadata params) true ttl now store →
      ∀ kv ∈ params, kv.1 ≠ "service" → kv.1 ≠ "mode" →
        d.metadata.get kv.1 = some (parseString kv.2)) ∧
    (∀ d : Instance,
      basePred "" "" [("version", parseString "2")] d = false) := by
  refine ⟨rfl, rfl, ?_, by decide, ?_, ?_, ?_, ?_⟩
  · intro s h1 h2
    unfold parseString
    rw [if_neg h1, if_neg h2]
  · intro params kv hkv h1 h2
    exact mem_lookupMetadata_of_param params kv hkv h1 h2
  · intro params kv hkv
    unfold lookupMetadata at hkv
    obtain ⟨p, hp, hpe⟩ := List.mem_map.mp hkv
    obtain ⟨hpmem, hpcond⟩ := List.mem_filter.mp hp
    rw [Bool.and_eq_true, bne_iff_ne, bne_iff_ne] at hpcond
    subst hpe
    exact ⟨hpcond.1, hpcond.2, p.2, hpmem, rfl⟩
  · intro now ttl params store d hd kv hkv h1 h2
    have hmem := mem_lookupMetadata_of_param params kv hkv h1 h2
    unfold Find at hd
    have hpred := (List.mem_filter.mp hd).2
    unfold findPred at hpred
    rw [Bool.and_eq_true] at hpred
    have hbase := hpred.1
    simp only [basePred, Bool.and_eq_true] at hbase
    have hall := List.all_eq_true.mp hbase.2 _ hmem
    exact eq_of_beq hall
  · intro d
    simp [basePred, Metadata.get, parseString]

/-- An instance registered under the empty service name. -/
def instEmptyName : Instance :=
  { instEx with serviceName := "", id := "e0", lastHeartbeat := 100 }

/-- instEx with a heartbeat recent enough to be alive at time 100. -/
def instNamed : Instance :=
  { instEx with lastHeartbeat := 100 }

/-- C10: an empty serviceName (or mode) argument places no constraint on
that field — the base filter degenerates to the remaining conjuncts — and
consequently a lookup with service set to the empty string returns
instances of every service name, so it can never select only the records
whose serviceName is empty: concretely, a store holding an instance with
empty serviceName and one named "order-service" yields both. -/
theorem empty_filter_unconstrained :
    (∀ mode : String, ∀ metadata : List (String × BVal), ∀ d : Instance,
      basePred "" mode metadata d =
        ((mode == "" || d.mode == mode) &&
          (metadata.all fun kv => d.metadata.get kv.1 == some kv.2))) ∧
    (∀ sn : String, ∀ metadata : List (String × BVal), ∀ d : Instance,
      basePred sn "" metadata d =
        ((sn == "" || d.serviceName == sn) &&
          (metadata.all fun kv => d.metadata.get kv.1 == some kv.2))) ∧
    lookupHandler 100 30 [("service", "")] [instEmptyName, instNamed] =
      (200, JsonBody.arrayBody [instEmptyName, instNamed]) := by
  refine ⟨?_, ?_, by decide⟩
  · intro mode metadata d
    simp [basePred]
  · intro sn metadata d
    simp [basePred, Bool.and_comm, Bool.and_assoc, Bool.and_left_comm]

end ServiceDiscovery
